import Mathlib

/-!
Verification of the erract structured-error library: a shallow embedding of
the core error value type (src/error.rs), the retry-status and kind catalogs
(src/status.rs, src/kind.rs, src/http.rs, src/db.rs, src/storage.rs), the
thread-local context arena (src/arena/mod.rs) and the frame-tree traversal
(src/extract.rs), with theorems settling the frozen specification claims.

Modelling conventions:
* Rust `Cow<'static, str>` values are modelled as `String`; at the arena
  layer, where the code manipulates raw UTF-8 bytes, strings are modelled by
  their byte sequences (`List Nat`, each entry one byte).
* `u16` / `u32` / `usize` become `Nat`, with `as u32` truncation written
  `% 2 ^ 32` where it occurs (u32le below).
* The thread-local arena and the calling thread id become explicit
  parameters; `&mut self` methods become state-passing functions.
* The frame tree of the external `exn` crate is modelled at the boundary the
  spec fixes for it: a node has an ordered list of children and a payload
  whose downcast to `Error` yields `Option Error`.
-/

namespace Erract

/-- `ErrorStatus` from src/status.rs: explicit retry semantics. -/
inductive ErrorStatus where
  | Permanent
  | Temporary
  | Persistent
deriving DecidableEq, Repr

/-- `ErrorStatus::is_retryable` (src/status.rs lines 22-25):
`matches!(self, ErrorStatus::Temporary)`. -/
def ErrorStatus.is_retryable : ErrorStatus → Bool
  | .Temporary => true
  | _ => false

/-- `ErrorStatus::is_permanent` (src/status.rs lines 28-31). -/
def ErrorStatus.is_permanent : ErrorStatus → Bool
  | .Permanent => true
  | _ => false

/-- `ErrorStatus::to_machine_string` (src/status.rs lines 70-76). -/
def ErrorStatus.to_machine_string : ErrorStatus → String
  | .Permanent => "permanent"
  | .Temporary => "temporary"
  | .Persistent => "persistent"

/-- `HttpErrorKind` from src/http.rs. The `u16` status codes become `Nat`. -/
inductive HttpErrorKind where
  | ClientError (code : Nat)
  | ServerError (code : Nat)
  | RateLimited
  | NetworkError
  | TlsError
  | InvalidUrl
  | RedirectLoop
  | TooManyRedirects
  | RequestTimeout
  | EncodingError
  | DecodingError
deriving DecidableEq, Repr

/-- `HttpErrorKind::is_retryable` (src/http.rs lines 46-60). -/
def HttpErrorKind.is_retryable : HttpErrorKind → Bool
  | .ClientError _ => false
  | .ServerError _ => true
  | .RateLimited => true
  | .NetworkError => true
  | .TlsError => true
  | .InvalidUrl => false
  | .RedirectLoop => false
  | .TooManyRedirects => false
  | .RequestTimeout => true
  | .EncodingError => true
  | .DecodingError => false

/-- `HttpErrorKind::to_machine_string` (src/http.rs lines 139-153). -/
def HttpErrorKind.to_machine_string : HttpErrorKind → String
  | .ClientError code => "client_error_" ++ toString code
  | .ServerError code => "server_error_" ++ toString code
  | .RateLimited => "rate_limited"
  | .NetworkError => "network_error"
  | .TlsError => "tls_error"
  | .InvalidUrl => "invalid_url"
  | .RedirectLoop => "redirect_loop"
  | .TooManyRedirects => "too_many_redirects"
  | .RequestTimeout => "request_timeout"
  | .EncodingError => "encoding_error"
  | .DecodingError => "decoding_error"

/-- `DatabaseErrorKind` from src/db.rs. -/
inductive DatabaseErrorKind where
  | ConnectionFailed
  | ConnectionLost
  | QuerySyntax
  | QueryExecution
  | ConstraintViolation
  | Deadlock
  | SerializationFailure
  | TransactionTimeout
  | NestedTransaction
  | NoRows
  | TooManyRows
  | TypeMismatch
  | SchemaMismatch
  | DatabaseLocked
  | DiskFull
  | PermissionDenied
  | ReadOnly
deriving DecidableEq, Repr

/-- `DatabaseErrorKind::is_retryable` (src/db.rs lines 64-84). -/
def DatabaseErrorKind.is_retryable : DatabaseErrorKind → Bool
  | .ConnectionFailed => true
  | .ConnectionLost => true
  | .QuerySyntax => false
  | .QueryExecution => false
  | .ConstraintViolation => false
  | .Deadlock => true
  | .SerializationFailure => true
  | .TransactionTimeout => true
  | .NestedTransaction => false
  | .NoRows => false
  | .TooManyRows => false
  | .TypeMismatch => false
  | .SchemaMismatch => false
  | .DatabaseLocked => true
  | .DiskFull => false
  | .PermissionDenied => false
  | .ReadOnly => false

/-- `DatabaseErrorKind::to_machine_string` (src/db.rs lines 160-180). -/
def DatabaseErrorKind.to_machine_string : DatabaseErrorKind → String
  | .ConnectionFailed => "connection_failed"
  | .ConnectionLost => "connection_lost"
  | .QuerySyntax => "query_syntax"
  | .QueryExecution => "query_execution"
  | .ConstraintViolation => "constraint_violation"
  | .Deadlock => "deadlock"
  | .SerializationFailure => "serialization_failure"
  | .TransactionTimeout => "transaction_timeout"
  | .NestedTransaction => "nested_transaction"
  | .NoRows => "no_rows"
  | .TooManyRows => "too_many_rows"
  | .TypeMismatch => "type_mismatch"
  | .SchemaMismatch => "schema_mismatch"
  | .DatabaseLocked => "database_locked"
  | .DiskFull => "disk_full"
  | .PermissionDenied => "permission_denied"
  | .ReadOnly => "read_only"

/-- `StorageErrorKind` from src/storage.rs. -/
inductive StorageErrorKind where
  | NotFound
  | DirectoryNotFound
  | PermissionDenied
  | AlreadyExists
  | IsDirectory
  | NotDirectory
  | DiskFull
  | IoError
  | FileNameTooLong
  | PathTooLong
  | TooManyOpenFiles
  | ReadOnly
  | StorageFull
  | NetworkError
  | NetworkTimeout
  | InvalidFilename
  | InvalidPath
  | SymlinkLoop
  | TooManySymlinks
deriving DecidableEq, Repr

/-- `StorageErrorKind::is_retryable` (src/storage.rs lines 70-92). -/
def StorageErrorKind.is_retryable : StorageErrorKind → Bool
  | .NotFound => false
  | .DirectoryNotFound => false
  | .PermissionDenied => false
  | .AlreadyExists => false
  | .IsDirectory => false
  | .NotDirectory => false
  | .DiskFull => false
  | .IoError => true
  | .FileNameTooLong => false
  | .PathTooLong => false
  | .TooManyOpenFiles => true
  | .ReadOnly => false
  | .StorageFull => false
  | .NetworkError => true
  | .NetworkTimeout => true
  | .InvalidFilename => false
  | .InvalidPath => false
  | .SymlinkLoop => false
  | .TooManySymlinks => false

/-- `StorageErrorKind::to_machine_string` (src/storage.rs lines 176-198). -/
def StorageErrorKind.to_machine_string : StorageErrorKind → String
  | .NotFound => "not_found"
  | .DirectoryNotFound => "directory_not_found"
  | .PermissionDenied => "permission_denied"
  | .AlreadyExists => "already_exists"
  | .IsDirectory => "is_directory"
  | .NotDirectory => "not_directory"
  | .DiskFull => "disk_full"
  | .IoError => "io_error"
  | .FileNameTooLong => "file_name_too_long"
  | .PathTooLong => "path_too_long"
  | .TooManyOpenFiles => "too_many_open_files"
  | .ReadOnly => "read_only"
  | .StorageFull => "storage_full"
  | .NetworkError => "network_error"
  | .NetworkTimeout => "network_timeout"
  | .InvalidFilename => "invalid_filename"
  | .InvalidPath => "invalid_path"
  | .SymlinkLoop => "symlink_loop"
  | .TooManySymlinks => "too_many_symlinks"

/-- `ErrorKind` from src/kind.rs: base variants plus the feature-gated
domain variants wrapping the HTTP/DB/Storage catalogs. -/
inductive ErrorKind where
  | NotFound
  | PermissionDenied
  | Timeout
  | Validation
  | Unexpected
  | Http (k : HttpErrorKind)
  | Database (k : DatabaseErrorKind)
  | Storage (k : StorageErrorKind)
deriving DecidableEq, Repr

/-- `ErrorKind::is_retryable` (src/kind.rs lines 61-75): the kind-level
retry hint, delegating to the domain catalogs for the wrapped variants. -/
def ErrorKind.is_retryable : ErrorKind → Bool
  | .NotFound => false
  | .PermissionDenied => false
  | .Timeout => true
  | .Validation => false
  | .Unexpected => false
  | .Http k => k.is_retryable
  | .Database k => k.is_retryable
  | .Storage k => k.is_retryable

/-- `ErrorKind::to_machine_string` (src/kind.rs lines 111-125). -/
def ErrorKind.to_machine_string : ErrorKind → String
  | .NotFound => "not_found"
  | .PermissionDenied => "permission_denied"
  | .Timeout => "timeout"
  | .Validation => "validation_error"
  | .Unexpected => "unexpected_error"
  | .Http k => "http_" ++ k.to_machine_string
  | .Database k => "database_" ++ k.to_machine_string
  | .Storage k => "storage_" ++ k.to_machine_string

/-- The `Error` struct from src/error.rs lines 45-52. Its context field is a
`ContextVec` (a SmallVec of key/value `Cow` pairs) stored directly in the
value, modelled as a list of string pairs; `message` is a `Cow<'static, str>`
and `operation` an `Option<&'static str>`. -/
structure Error where
  kind : ErrorKind
  status : ErrorStatus
  message : String
  operation : Option String
  context : List (String × String)
deriving DecidableEq, Repr

/-- `Error::permanent_static` / `Error::permanent` (src/error.rs lines 95-103
and 135-143): both build the same value in the model, where `Cow` borrowing
is invisible. -/
def Error.permanent (kind : ErrorKind) (message : String) : Error :=
  { kind := kind, status := .Permanent, message := message,
    operation := none, context := [] }

/-- `Error::temporary_static` / `Error::temporary` (src/error.rs lines
107-115 and 147-155). -/
def Error.temporary (kind : ErrorKind) (message : String) : Error :=
  { kind := kind, status := .Temporary, message := message,
    operation := none, context := [] }

/-- `Error::persistent_static` / `Error::persistent` (src/error.rs lines
119-127 and 159-167). -/
def Error.persistent (kind : ErrorKind) (message : String) : Error :=
  { kind := kind, status := .Persistent, message := message,
    operation := none, context := [] }

/-- `Error::new` (src/error.rs lines 171-183). -/
def Error.new (kind : ErrorKind) (status : ErrorStatus) (message : String) :
    Error :=
  { kind := kind, status := status, message := message,
    operation := none, context := [] }

/-- `Error::not_found` (src/error.rs lines 61-63). -/
def Error.not_found : Error := Error.permanent .NotFound "not found"

/-- `Error::timeout` (src/error.rs lines 73-75). -/
def Error.timeout : Error := Error.temporary .Timeout "operation timed out"

/-- `Error::is_retryable` (src/error.rs lines 229-233):
`self.status.is_retryable()`. -/
def Error.is_retryable (e : Error) : Bool := e.status.is_retryable

/-- `Error::is_permanent` (src/error.rs lines 235-239). -/
def Error.is_permanent (e : Error) : Bool := e.status.is_permanent

/-- `Error::with_operation` (src/error.rs lines 246-251). -/
def Error.with_operation (e : Error) (operation : String) : Error :=
  { e with operation := some operation }

/-- `Error::with_context` (src/error.rs lines 253-263): pushes the pair onto
the error's own context vector (`self.context.push(...)`) and returns the
updated value. No other state is read or written. -/
def Error.with_context (e : Error) (key value : String) : Error :=
  { e with context := e.context ++ [(key, value)] }

/-- Iterated `with_context`: one call per pair of the list, left to right. -/
def Error.with_context_list (e : Error) (ps : List (String × String)) :
    Error :=
  ps.foldl (fun acc kv => acc.with_context kv.1 kv.2) e

/-- The `PartialEq` implementation that `#[derive(PartialEq, Eq)]` on
src/error.rs line 45 generates: field-by-field comparison of every field of
the struct, `context` included. -/
def Error.eq (a b : Error) : Bool :=
  decide (a.kind = b.kind) && decide (a.status = b.status) &&
    decide (a.message = b.message) && decide (a.operation = b.operation) &&
    decide (a.context = b.context)

/-- `(len as u32).to_le_bytes()` (src/arena/mod.rs lines 134-138): the four
little-endian bytes of a length truncated to `u32`. Each component below
already equals the corresponding byte of `n % 2^32`. -/
def u32le (n : Nat) : List Nat :=
  [n % 256, n / 256 % 256, n / 65536 % 256, n / 16777216 % 256]

/-- `u32::from_le_bytes` (src/arena/mod.rs lines 156 and 167) applied to a
4-byte slice; the bounds checks in `get_pairs` guarantee the slice has
exactly four bytes, so the fallback branch is never taken there. -/
def fromLe32 : List Nat → Nat
  | [b0, b1, b2, b3] => b0 + 256 * b1 + 65536 * b2 + 16777216 * b3
  | _ => 0

/-- The byte encoding `push_pairs` appends for one key/value pair
(src/arena/mod.rs lines 131-139): u32-LE key length, key bytes, u32-LE value
length, value bytes. Keys and values are byte lists (UTF-8 of the strings). -/
def encodePair (p : List Nat × List Nat) : List Nat :=
  u32le p.1.length ++ (p.1 ++ (u32le p.2.length ++ p.2))

/-- The concatenated encoding of a list of pairs, in order. -/
def encodePairs : List (List Nat × List Nat) → List Nat
  | [] => []
  | p :: rest => encodePair p ++ encodePairs rest

/-- `ContextArena` (src/arena/mod.rs lines 108-110): a growable byte
buffer. -/
structure ContextArena where
  buffer : List Nat
deriving DecidableEq, Repr

/-- `ContextArena::clear` (src/arena/mod.rs lines 120-122):
`self.buffer.clear()`. -/
def ContextArena.clear (a : ContextArena) : ContextArena :=
  { a with buffer := [] }

/-- `ContextArena::push_pairs` (src/arena/mod.rs lines 126-142): appends the
length-prefixed encoding of each pair to the buffer and returns the new
arena together with the starting offset and the pair count. -/
def ContextArena.push_pairs (a : ContextArena)
    (pairs : List (List Nat × List Nat)) : ContextArena × Nat × Nat :=
  ({ buffer := pairs.foldl (fun buf p => buf ++ encodePair p) a.buffer },
    a.buffer.length, pairs.length)

/-- The decoding loop of `ContextArena::get_pairs` (src/arena/mod.rs lines
150-177): `for _ in 0..len` with a running position; every slice read is
guarded by a bounds check, and a failed check breaks out of the loop,
returning the pairs accumulated so far. -/
def ContextArena.getPairsGo (a : ContextArena) : Nat → Nat → List (List Nat × List Nat)
  | 0, _ => []
  | n + 1, pos =>
    if pos + 4 > a.buffer.length then []
    else
      let k_len := fromLe32 ((a.buffer.drop pos).take 4)
      if pos + 4 + k_len > a.buffer.length then []
      else
        let k := (a.buffer.drop (pos + 4)).take k_len
        if pos + 4 + k_len + 4 > a.buffer.length then []
        else
          let v_len := fromLe32 ((a.buffer.drop (pos + 4 + k_len)).take 4)
          if pos + 4 + k_len + 4 + v_len > a.buffer.length then []
          else
            let v := (a.buffer.drop (pos + 4 + k_len + 4)).take v_len
            (k, v) :: a.getPairsGo n (pos + 4 + k_len + 4 + v_len)

/-- `ContextArena::get_pairs` (src/arena/mod.rs lines 145-178). -/
def ContextArena.get_pairs (a : ContextArena) (offset len : Nat) :
    List (List Nat × List Nat) :=
  a.getPairsGo len offset

/-- `ContextHandle` (src/arena/mod.rs lines 24-39): context lives in the
thread-local arena, on the heap, or nowhere. -/
inductive ContextHandle where
  | Arena (offset len thread_id : Nat)
  | Heap (v : List (List Nat × List Nat))
  | Empty
deriving DecidableEq, Repr

/-- `ContextHandle::len` (src/arena/mod.rs lines 93-99). -/
def ContextHandle.len : ContextHandle → Nat
  | .Arena _ len _ => len
  | .Heap v => v.length
  | .Empty => 0

/-- The pair resolution performed when a `ContextHandle` is read
(src/arena/mod.rs lines 48-62, the body of `ContextHandle::serialize`):
`Empty` resolves to no pairs, `Heap` to its owned pairs, and `Arena` to the
decoded arena pairs when the calling thread's id equals the handle's
`thread_id`, otherwise to no pairs. The calling thread's id and its arena
are explicit parameters. -/
def ContextHandle.serializePairs (h : ContextHandle) (current_thread : Nat)
    (arena : ContextArena) : List (List Nat × List Nat) :=
  match h with
  | .Empty => []
  | .Heap v => v
  | .Arena offset len thread_id =>
    if thread_id = current_thread then arena.get_pairs offset len else []

/-- `commit_to_arena` (src/arena/mod.rs lines 187-195): pushes the pairs
into the calling thread's arena and wraps the returned offset and count in
an `Arena` handle carrying that thread's id. Returns the updated arena with
the handle. -/
def commit_to_arena (current_thread : Nat) (arena : ContextArena)
    (pairs : List (List Nat × List Nat)) : ContextArena × ContextHandle :=
  let r := arena.push_pairs pairs
  (r.1, .Arena r.2.1 r.2.2 current_thread)

/-- `Error::with_context` as an action on the combined state of the error
value and the calling thread's arena. The body of `with_context`
(src/error.rs lines 253-263) only pushes onto the error's own vector and
contains no call into the arena module, so the arena component is returned
unchanged. -/
def Error.with_contextS (e : Error) (key value : String)
    (arena : ContextArena) : Error × ContextArena :=
  (e.with_context key value, arena)

/-- Rust `char::is_control()`: the Unicode Cc category, U+0000..U+001F and
U+007F..U+009F. -/
def isControlChar (c : Char) : Bool :=
  c.toNat < 32 || (127 ≤ c.toNat && c.toNat ≤ 159)

/-- One lowercase hexadecimal digit, as Rust's `{:x}` renders it. -/
def hexDigitChar (n : Nat) : Char :=
  if n < 10 then Char.ofNat (48 + n) else Char.ofNat (87 + n)

/-- Rust's `{:04x}`: four lowercase hex digits, zero padded (faithful for
every value below 2^16; `write_escaped` only formats code points ≤ 0x9F). -/
def hex4 (n : Nat) : String :=
  String.mk [hexDigitChar (n / 4096 % 16), hexDigitChar (n / 256 % 16),
    hexDigitChar (n / 16 % 16), hexDigitChar (n % 16)]

/-- The per-character action of `write_escaped` (src/error.rs lines
485-500): the match over the current character. -/
def escapeCharStr (c : Char) : String :=
  if c = '"' then "\\\""
  else if c = '\\' then "\\\\"
  else if c = '\n' then "\\n"
  else if c = '\r' then "\\r"
  else if c = '\t' then "\\t"
  else if isControlChar c then "\\u" ++ hex4 c.toNat
  else String.singleton c

/-- `write_escaped` (src/error.rs lines 483-500): folds over the characters
of `s`, appending each one's escape to the buffer. -/
def write_escaped (buf : String) (s : String) : String :=
  s.data.foldl (fun b c => b ++ escapeCharStr c) buf

/-- The whole-string escaping: each character escaped, concatenated. Used to
state what `write_escaped` appends. -/
def escapeChars : List Char → String
  | [] => ""
  | c :: rest => escapeCharStr c ++ escapeChars rest

/-- String form of `escapeChars`. -/
def escapeString (s : String) : String := escapeChars s.data

/-- The `operation` JSON segment: present exactly when the field is set
(src/error.rs lines 417-421; the operation string is written verbatim). -/
def opSegment : Option String → String
  | none => ""
  | some op => ",\"operation\":\"" ++ op ++ "\""

/-- One rendered context entry: escaped key and value in an object field. -/
def ctxItem (kv : String × String) : String :=
  "\"" ++ escapeString kv.1 ++ "\":\"" ++ escapeString kv.2 ++ "\""

/-- Rendered context entries after the first, each preceded by a comma. -/
def ctxItemsTail : List (String × String) → String
  | [] => ""
  | kv :: rest => "," ++ ctxItem kv ++ ctxItemsTail rest

/-- All rendered context entries, comma separated. -/
def ctxItems : List (String × String) → String
  | [] => ""
  | kv :: rest => ctxItem kv ++ ctxItemsTail rest

/-- The `context` JSON segment: present exactly when the context is
non-empty. -/
def ctxSegment (ctx : List (String × String)) : String :=
  if ctx = [] then ""
  else ",\"context\":\x7b" ++ ctxItems ctx ++ "\x7d"

/-- One iteration of the context-rendering loop of `to_json`/`write_json`
(src/error.rs lines 426-436 and 465-475): the state is the buffer and the
`first` flag; `push(char)` is modelled as appending the one-character
string. -/
def context_json_step (st : String × Bool) (kv : String × String) :
    String × Bool :=
  let b := st.1
  let b := if st.2 then b else b ++ ","
  let b := b ++ "\""
  let b := write_escaped b kv.1
  let b := b ++ "\":\""
  let b := write_escaped b kv.2
  let b := b ++ "\""
  (b, false)

/-- The context-rendering loop of `to_json`/`write_json` (src/error.rs lines
424-437 and 463-476). -/
def context_json (buf : String) (ctx : List (String × String)) : String :=
  (ctx.foldl context_json_step (buf, true)).1

/-- `Error::to_json` (src/error.rs lines 404-442): builds the JSON object in
a fresh string by successive pushes. -/
def Error.to_json (e : Error) : String :=
  let json := "\x7b\"kind\":\""
  let json := json ++ e.kind.to_machine_string
  let json := json ++ "\",\"status\":\""
  let json := json ++ e.status.to_machine_string
  let json := json ++ "\",\"message\":\""
  let json := write_escaped json e.message
  let json := json ++ "\""
  let json :=
    match e.operation with
    | some op => json ++ ",\"operation\":\"" ++ op ++ "\""
    | none => json
  let json :=
    if e.context.isEmpty then json
    else context_json (json ++ ",\"context\":\x7b") e.context ++ "\x7d"
  json ++ "\x7d"

/-- `Error::write_json` (src/error.rs lines 447-480): the same rendering,
appended to a caller-supplied buffer. -/
def Error.write_json (e : Error) (buf : String) : String :=
  let b := buf ++ "\x7b\"kind\":\""
  let b := b ++ e.kind.to_machine_string
  let b := b ++ "\",\"status\":\""
  let b := b ++ e.status.to_machine_string
  let b := b ++ "\",\"message\":\""
  let b := write_escaped b e.message
  let b := b ++ "\""
  let b :=
    match e.operation with
    | some op => b ++ ",\"operation\":\"" ++ op ++ "\""
    | none => b
  let b :=
    if e.context.isEmpty then b
    else context_json (b ++ ",\"context\":\x7b") e.context ++ "\x7d"
  b ++ "\x7d"

/-- The frame tree of the external `exn` crate, modelled at the boundary the
spec fixes (spec §6): a node carries a polymorphic payload, accessed only
through a downcast that yields the `Error` when the payload is one and
nothing otherwise, and an ordered list of children. -/
inductive Frame where
  | mk (payload : Option Error) (children : List Frame)

/-- The downcast capability: `frame.as_any().downcast_ref::<Error>()`. -/
def Frame.payload : Frame → Option Error
  | .mk p _ => p

/-- `frame.children()`. -/
def Frame.children : Frame → List Frame
  | .mk _ cs => cs

/-- Total number of frames in a forest (the termination measure for the
explicit-stack traversal). -/
def framesSize : List Frame → Nat
  | [] => 0
  | .mk _ cs :: rest => 1 + framesSize cs + framesSize rest

/-- `FrameIter` (src/extract.rs lines 9-39) as a function from the explicit
stack to the sequence of frames the iterator yields: pop the top frame,
push its children in order (so they are visited in reverse child order),
and emit the popped frame. -/
def visitAll : List Frame → List Frame
  | [] => []
  | .mk p cs :: rest => .mk p cs :: visitAll (cs.reverse ++ rest)
termination_by s => framesSize s
decreasing_by
  have happ : ∀ (a b : List Frame),
      framesSize (a ++ b) = framesSize a + framesSize b := by
    intro a
    induction a with
    | nil => intro b; simp [framesSize]
    | cons f resta ih =>
      intro b
      cases f with
      | mk p cs =>
        rw [List.cons_append, framesSize, framesSize, ih]
        omega
  have hrev : ∀ (a : List Frame), framesSize a.reverse = framesSize a := by
    intro a
    induction a with
    | nil => rfl
    | cons f resta ih =>
      cases f with
      | mk p cs =>
        rw [List.reverse_cons, happ, framesSize, framesSize, ih, framesSize]
        omega
  rw [happ, hrev, framesSize]
  omega

/-- The per-frame predicate of `is_all_retryable` (src/extract.rs lines
84-88): `downcast_ref::<Error>().is_none_or(|e| e.is_retryable())`. -/
def frameRetryableOk (f : Frame) : Bool :=
  match f.payload with
  | some e => e.is_retryable
  | none => true

/-- `is_all_retryable` (src/extract.rs lines 82-89): the iterative
traversal checks every visited frame. -/
def is_all_retryable (root : Frame) : Bool :=
  (visitAll [root]).all frameRetryableOk

mutual

/-- The frames of a tree, enumerated recursively: the node itself and the
frames of its children. Reference enumeration used to state what the
explicit-stack traversal visits. -/
def subframesF : Frame → List Frame
  | .mk p cs => .mk p cs :: subframesL cs

/-- The frames of every tree in a forest. -/
def subframesL : List Frame → List Frame
  | [] => []
  | f :: rest => subframesF f ++ subframesL rest

end

/-- The frames of a tree. -/
def Frame.subframes (f : Frame) : List Frame := subframesL [f]

/-- Every `Error` payload in the frame has the given status (vacuous for a
frame without an `Error` payload). -/
def payloadAllStatus (s : ErrorStatus) (f : Frame) : Prop :=
  ∀ e, f.payload = some e → e.status = s

/-- The frame carries an `Error` payload with the given status. -/
def payloadHasStatus (s : ErrorStatus) (f : Frame) : Prop :=
  ∃ e, f.payload = some e ∧ e.status = s

instance payloadAllStatusDec (s : ErrorStatus) (f : Frame) :
    Decidable (payloadAllStatus s f) :=
  match hp : f.payload with
  | none => isTrue (fun _ he => Option.noConfusion (hp ▸ he))
  | some e0 =>
    if hs : e0.status = s then
      isTrue (fun _ he => (Option.some.inj (hp ▸ he)) ▸ hs)
    else isFalse (fun h => hs (h e0 hp))

instance payloadHasStatusDec (s : ErrorStatus) (f : Frame) :
    Decidable (payloadHasStatus s f) :=
  match hp : f.payload with
  | none => isFalse (fun ⟨_, he, _⟩ => Option.noConfusion (hp ▸ he))
  | some e0 =>
    if hs : e0.status = s then isTrue ⟨e0, hp, hs⟩
    else isFalse (fun ⟨_, he, hse⟩ =>
      hs ((Option.some.inj (hp ▸ he)).symm ▸ hse))

end Erract

namespace Erract

/-- C1: for every `Error` — over every kind, the domain-catalog kinds with
their own retryability tables included — `is_retryable()` is true exactly
when the status is `Temporary`; the kind never enters the computation. -/
theorem retryable_iff_status_temporary (k : ErrorKind) (s : ErrorStatus)
    (m : String) (o : Option String) (c : List (String × String)) :
    (Error.mk k s m o c).is_retryable = true ↔ s = ErrorStatus.Temporary := by
  cases s <;> simp [Error.is_retryable, ErrorStatus.is_retryable]

/-- C4 counterexample: two errors agreeing on kind, status, message and
operation but differing in context are unequal under the derived `PartialEq`,
so equality is not determined by the quadruple alone. -/
theorem error_eq_counterexample :
    Error.eq Error.not_found (Error.not_found.with_context "k" "v") = false ∧
      Error.not_found.kind = (Error.not_found.with_context "k" "v").kind ∧
      Error.not_found.status = (Error.not_found.with_context "k" "v").status ∧
      Error.not_found.message =
        (Error.not_found.with_context "k" "v").message ∧
      Error.not_found.operation =
        (Error.not_found.with_context "k" "v").operation := by
  decide

/-- C4 (amended): the derived equality of two `Error` values compares all
five fields — kind, status, message, operation and context — and coincides
with structural equality of the values. -/
theorem error_eq_iff_all_fields (a b : Error) :
    Error.eq a b = true ↔
      (a.kind = b.kind ∧ a.status = b.status ∧ a.message = b.message ∧
        a.operation = b.operation ∧ a.context = b.context) := by
  cases a
  cases b
  simp [Error.eq, and_assoc]

/-- C5: N calls of `with_context` append the N pairs, in insertion order, to
the context the error already carries, and the result's `context()` has the
expected length. Each call is a total function producing a new value (the
input value is unchanged — functional update). -/
theorem with_context_list_context (e : Error) (ps : List (String × String)) :
    (e.with_context_list ps).context = e.context ++ ps ∧
      (e.with_context_list ps).context.length =
        e.context.length + ps.length := by
  have h : ∀ (ps : List (String × String)) (e : Error),
      (e.with_context_list ps).context = e.context ++ ps := by
    intro ps
    induction ps with
    | nil => intro e; simp [Error.with_context_list]
    | cons p rest ih =>
      intro e
      rw [Error.with_context_list, List.foldl_cons]
      have := ih (e.with_context p.1 p.2)
      rw [Error.with_context_list] at this
      rw [this]
      simp [Error.with_context]
  refine ⟨h ps e, ?_⟩
  rw [h ps e]
  simp

theorem u32le_length (n : Nat) : (u32le n).length = 4 := rfl

theorem fromLe32_u32le (n : Nat) (h : n < 2 ^ 32) :
    fromLe32 (u32le n) = n := by
  simp only [u32le, fromLe32]
  omega

/-- One successful iteration of the `get_pairs` loop: when the buffer from
`pos` on starts with the encoding of a pair whose key and value lengths fit
in a `u32`, the loop decodes exactly that pair and continues after it. -/
theorem getPairsGo_cons (a : ContextArena) (n pos : Nat)
    (k v tail : List Nat)
    (hpos : pos ≤ a.buffer.length)
    (hbuf : a.buffer.drop pos = encodePair (k, v) ++ tail)
    (hk : k.length < 2 ^ 32) (hv : v.length < 2 ^ 32) :
    a.getPairsGo (n + 1) pos =
      (k, v) :: a.getPairsGo n (pos + 4 + k.length + 4 + v.length) := by
  have hlen4 : (u32le k.length).length = 4 := rfl
  have hlenv4 : (u32le v.length).length = 4 := rfl
  have h0 : a.buffer.drop pos =
      u32le k.length ++ (k ++ (u32le v.length ++ (v ++ tail))) := by
    simpa [encodePair, List.append_assoc] using hbuf
  have hc := congrArg List.length h0
  simp only [List.length_drop, List.length_append, u32le_length] at hc
  have hs1 : (a.buffer.drop pos).take 4 = u32le k.length := by
    rw [h0, ← hlen4]
    exact List.take_left _ _
  have hklen : fromLe32 ((a.buffer.drop pos).take 4) = k.length := by
    rw [hs1]
    exact fromLe32_u32le _ hk
  have hd1 : a.buffer.drop (pos + 4) = k ++ (u32le v.length ++ (v ++ tail)) := by
    rw [← List.drop_drop, h0, ← hlen4, List.drop_left]
  have hs2 : (a.buffer.drop (pos + 4)).take k.length = k := by
    rw [hd1]
    exact List.take_left _ _
  have hd2 : a.buffer.drop (pos + 4 + k.length) =
      u32le v.length ++ (v ++ tail) := by
    rw [← List.drop_drop, hd1, List.drop_left]
  have hs3 : (a.buffer.drop (pos + 4 + k.length)).take 4 = u32le v.length := by
    rw [hd2, ← hlenv4]
    exact List.take_left _ _
  have hvlen : fromLe32 ((a.buffer.drop (pos + 4 + k.length)).take 4) =
      v.length := by
    rw [hs3]
    exact fromLe32_u32le _ hv
  have hd3 : a.buffer.drop (pos + 4 + k.length + 4) = v ++ tail := by
    rw [← List.drop_drop, hd2, ← hlenv4, List.drop_left]
  have hs4 : (a.buffer.drop (pos + 4 + k.length + 4)).take v.length = v := by
    rw [hd3]
    exact List.take_left _ _
  rw [ContextArena.getPairsGo]
  simp only [hklen, hvlen, hs2, hs4]
  rw [if_neg (by omega), if_neg (by omega), if_neg (by omega),
    if_neg (by omega)]

/-- Decoding an encoded pair list laid down at `pos` recovers the list, as
long as every key and value length fits in a `u32`. -/
theorem getPairsGo_decode (a : ContextArena) :
    ∀ (ps : List (List Nat × List Nat)) (pos : Nat),
      pos ≤ a.buffer.length →
      a.buffer.drop pos = encodePairs ps →
      (∀ p ∈ ps, p.1.length < 2 ^ 32 ∧ p.2.length < 2 ^ 32) →
      a.getPairsGo ps.length pos = ps := by
  intro ps
  induction ps with
  | nil => intro pos _ _ _; rfl
  | cons p rest ih =>
    intro pos hpos hbuf hwf
    obtain ⟨k, v⟩ := p
    have hk := (hwf (k, v) (by simp)).1
    have hv := (hwf (k, v) (by simp)).2
    have hbuf' : a.buffer.drop pos = encodePair (k, v) ++ encodePairs rest := by
      simpa [encodePairs] using hbuf
    have hEl : (encodePair (k, v)).length = 4 + k.length + 4 + v.length := by
      simp [encodePair, u32le]
      omega
    have hc := congrArg List.length hbuf'
    simp only [List.length_drop, List.length_append, hEl] at hc
    rw [List.length_cons,
      getPairsGo_cons a rest.length pos k v (encodePairs rest) hpos hbuf' hk hv]
    congr 1
    apply ih
    · omega
    · rw [show pos + 4 + k.length + 4 + v.length =
          pos + (encodePair (k, v)).length from by rw [hEl]; omega,
        ← List.drop_drop, hbuf', List.drop_left]
    · intro q hq
      exact hwf q (by simp [hq])

/-- The buffer produced by `push_pairs` is the old buffer followed by the
pair encoding. -/
theorem push_pairs_buffer (a : ContextArena)
    (ps : List (List Nat × List Nat)) :
    (a.push_pairs ps).1.buffer = a.buffer ++ encodePairs ps := by
  have h : ∀ (ps : List (List Nat × List Nat)) (buf : List Nat),
      ps.foldl (fun b p => b ++ encodePair p) buf = buf ++ encodePairs ps := by
    intro ps
    induction ps with
    | nil => intro buf; simp [encodePairs]
    | cons p rest ih =>
      intro buf
      rw [List.foldl_cons, ih, encodePairs, List.append_assoc]
  exact h ps a.buffer

/-- The `push_pairs` then `get_pairs` roundtrip on the returned
offset/count, for pairs whose byte lengths fit in a `u32`. -/
theorem push_pairs_get_pairs (a : ContextArena)
    (ps : List (List Nat × List Nat))
    (hwf : ∀ p ∈ ps, p.1.length < 2 ^ 32 ∧ p.2.length < 2 ^ 32) :
    (a.push_pairs ps).1.get_pairs (a.push_pairs ps).2.1
      (a.push_pairs ps).2.2 = ps := by
  have hbuf := push_pairs_buffer a ps
  show (a.push_pairs ps).1.getPairsGo ps.length a.buffer.length = ps
  apply getPairsGo_decode
  · rw [hbuf]
    simp
  · rw [hbuf]
    exact List.drop_left _ _
  · exact hwf

/-- C6 (amended): pushing a pair sequence and reading it back through the
returned offset and count decodes exactly the pairs written, in order —
provided each key and each value is shorter than 2^32 bytes, the range the
u32-LE length prefix can represent. -/
theorem arena_roundtrip (a : ContextArena)
    (ps : List (List Nat × List Nat))
    (hwf : ∀ p ∈ ps, p.1.length < 2 ^ 32 ∧ p.2.length < 2 ^ 32) :
    (a.push_pairs ps).1.get_pairs (a.push_pairs ps).2.1
      (a.push_pairs ps).2.2 = ps :=
  push_pairs_get_pairs a ps hwf

/-- C6 witness: the roundtrip at a concrete arena and concrete pairs. -/
theorem arena_roundtrip_witness :
    (∀ p ∈ [(([97] : List Nat), ([49] : List Nat)), ([], [50, 51])],
        p.1.length < 2 ^ 32 ∧ p.2.length < 2 ^ 32) ∧
      ((ContextArena.mk [9]).push_pairs
            [([97], [49]), ([], [50, 51])]).1.get_pairs
          ((ContextArena.mk [9]).push_pairs
            [([97], [49]), ([], [50, 51])]).2.1
          ((ContextArena.mk [9]).push_pairs
            [([97], [49]), ([], [50, 51])]).2.2 =
        [([97], [49]), ([], [50, 51])] :=
  ⟨by decide, arena_roundtrip (ContextArena.mk [9]) _ (by decide)⟩

/-- C6 counterexample: the claim quantifies over every pair sequence, but a
key of 2^32 bytes defeats the roundtrip — its length prefix truncates to 0
(`len as u32`), so `get_pairs` decodes an empty key instead of the written
one. The decoded result is one pair of empty byte strings, not the pair
that was written. -/
theorem arena_roundtrip_counterexample :
    ((ContextArena.mk []).push_pairs
          [(List.replicate (2 ^ 32) 0, [])]).1.get_pairs
        ((ContextArena.mk []).push_pairs
          [(List.replicate (2 ^ 32) 0, [])]).2.1
        ((ContextArena.mk []).push_pairs
          [(List.replicate (2 ^ 32) 0, [])]).2.2 =
      [(([] : List Nat), ([] : List Nat))] ∧
      ¬ (((ContextArena.mk []).push_pairs
            [(List.replicate (2 ^ 32) 0, [])]).1.get_pairs
          ((ContextArena.mk []).push_pairs
            [(List.replicate (2 ^ 32) 0, [])]).2.1
          ((ContextArena.mk []).push_pairs
            [(List.replicate (2 ^ 32) 0, [])]).2.2 =
          [(List.replicate (2 ^ 32) 0, [])]) := by
  have harena := push_pairs_buffer (ContextArena.mk [])
    [(List.replicate (2 ^ 32) 0, [])]
  have hbuf : ((ContextArena.mk []).push_pairs
      [(List.replicate (2 ^ 32) 0, [])]).1.buffer =
      encodePair (([] : List Nat), ([] : List Nat)) ++
        List.replicate (2 ^ 32) 0 := by
    rw [harena]
    show ([] : List Nat) ++ encodePairs [(List.replicate (2 ^ 32) 0, [])] =
      encodePair (([] : List Nat), ([] : List Nat)) ++ List.replicate (2 ^ 32) 0
    rw [List.nil_append, encodePairs, encodePairs, encodePair, encodePair]
    simp only [List.length_replicate, List.length_nil, List.nil_append,
      List.append_nil]
    rw [show u32le (2 ^ 32) = List.replicate 4 0 from by decide,
      show u32le 0 = List.replicate 4 0 from by decide]
    simp only [← List.replicate_add, List.append_assoc]
    congr 1
  have hmain : ((ContextArena.mk []).push_pairs
      [(List.replicate (2 ^ 32) 0, [])]).1.get_pairs
        ((ContextArena.mk []).push_pairs
          [(List.replicate (2 ^ 32) 0, [])]).2.1
        ((ContextArena.mk []).push_pairs
          [(List.replicate (2 ^ 32) 0, [])]).2.2 =
      [(([] : List Nat), ([] : List Nat))] := by
    show ((ContextArena.mk []).push_pairs
        [(List.replicate (2 ^ 32) 0, [])]).1.getPairsGo 1 0 = _
    rw [getPairsGo_cons _ 0 0 [] [] (List.replicate (2 ^ 32) 0)
      (Nat.zero_le _) (by rw [List.drop_zero, hbuf]) (by decide) (by decide)]
    rfl
  refine ⟨hmain, ?_⟩
  rw [hmain]
  intro hcontra
  have h1 : (([] : List Nat), ([] : List Nat)) =
      (List.replicate (2 ^ 32) 0, ([] : List Nat)) := by
    injection hcontra
  have h2 : ([] : List Nat) = List.replicate (2 ^ 32) 0 :=
    congrArg Prod.fst h1
  have h3 := congrArg List.length h2
  simp only [List.length_nil, List.length_replicate] at h3
  exact absurd h3.symm (by norm_num)

/-- The bound part of C7: the decoding loop never produces more than `len`
pairs. -/
theorem getPairsGo_length_le (a : ContextArena) :
    ∀ (n pos : Nat), (a.getPairsGo n pos).length ≤ n := by
  intro n
  induction n with
  | zero => intro pos; simp [ContextArena.getPairsGo]
  | succ n ih =>
    intro pos
    simp only [ContextArena.getPairsGo]
    split
    · simp
    · split
      · simp
      · split
        · simp
        · split
          · simp
          · simpa using Nat.succ_le_succ (ih _)

/-- C7: `get_pairs` is total and defensive — for every arena state, offset
and requested count it returns at most `len` pairs, stopping at the first
failed bounds check; and after `clear()` every read, at any previously
issued offset, returns the empty (truncated) result. -/
theorem get_pairs_total_and_clear (a : ContextArena) (offset len : Nat) :
    (a.get_pairs offset len).length ≤ len ∧
      a.clear.get_pairs offset len = [] := by
  constructor
  · exact getPairsGo_length_le a len offset
  · cases len with
    | zero => rfl
    | succ n =>
      show a.clear.getPairsGo (n + 1) offset = []
      rw [ContextArena.getPairsGo]
      rw [if_pos]
      show offset + 4 > ([] : List Nat).length
      simp

/-- C2 (amended): the tag-directed resolution the claim describes is what a
`ContextHandle` read performs (src/arena/mod.rs, `ContextHandle::serialize`):
`Empty` resolves to no pairs, `Heap` to its owned pairs, and an `Arena`
handle produced by `commit_to_arena` on thread `t` resolves to the committed
pairs when read on `t` and to the empty sequence on any other thread. That
resolution belongs to the handle read, not to `Error::context()`: the code's
`Error` stores its pairs directly and `context()` returns them regardless of
thread (see the counterexample). -/
theorem context_handle_resolution (ps : List (List Nat × List Nat))
    (a : ContextArena) (t t' : Nat)
    (hwf : ∀ p ∈ ps, p.1.length < 2 ^ 32 ∧ p.2.length < 2 ^ 32)
    (hne : t' ≠ t) :
    ContextHandle.serializePairs (commit_to_arena t a ps).2 t
        (commit_to_arena t a ps).1 = ps ∧
      ContextHandle.serializePairs (commit_to_arena t a ps).2 t'
        (commit_to_arena t a ps).1 = [] ∧
      (∀ (v : List (List Nat × List Nat)) (ct : Nat) (ar : ContextArena),
        ContextHandle.serializePairs (.Heap v) ct ar = v) ∧
      (∀ (ct : Nat) (ar : ContextArena),
        ContextHandle.serializePairs .Empty ct ar = []) := by
  refine ⟨?_, ?_, fun v ct ar => rfl, fun ct ar => rfl⟩
  · show ContextHandle.serializePairs
      (.Arena (a.push_pairs ps).2.1 (a.push_pairs ps).2.2 t) t
      (a.push_pairs ps).1 = ps
    rw [ContextHandle.serializePairs, if_pos rfl]
    exact push_pairs_get_pairs a ps hwf
  · show ContextHandle.serializePairs
      (.Arena (a.push_pairs ps).2.1 (a.push_pairs ps).2.2 t) t'
      (a.push_pairs ps).1 = []
    rw [ContextHandle.serializePairs, if_neg (Ne.symm hne)]

/-- C2 witness: concrete pairs committed on thread 1, read back on thread 1
and on thread 2. -/
theorem context_handle_resolution_witness :
    (∀ p ∈ [(([97] : List Nat), ([49] : List Nat))],
        p.1.length < 2 ^ 32 ∧ p.2.length < 2 ^ 32) ∧
      (2 : Nat) ≠ 1 ∧
      (ContextHandle.serializePairs
          (commit_to_arena 1 (ContextArena.mk []) [([97], [49])]).2 1
          (commit_to_arena 1 (ContextArena.mk []) [([97], [49])]).1 =
        [([97], [49])] ∧
        ContextHandle.serializePairs
            (commit_to_arena 1 (ContextArena.mk []) [([97], [49])]).2 2
            (commit_to_arena 1 (ContextArena.mk []) [([97], [49])]).1 = [] ∧
        (∀ (v : List (List Nat × List Nat)) (ct : Nat) (ar : ContextArena),
          ContextHandle.serializePairs (.Heap v) ct ar = v) ∧
        (∀ (ct : Nat) (ar : ContextArena),
          ContextHandle.serializePairs .Empty ct ar = [])) :=
  ⟨by decide, by decide,
    context_handle_resolution [([97], [49])] (ContextArena.mk []) 1 2
      (by decide) (by decide)⟩

/-- C2 counterexample: `Error::context()` performs no handle resolution. The
code's `Error` stores its pairs in a directly-owned vector — not behind a
`ContextHandle` — and `context()` (src/error.rs lines 223-227) returns that
vector unconditionally, with no dependence on the calling thread. Had the
two-pair context below been stored behind an `Arena` handle created on
thread 1, as the claim describes, a read from thread 2 would resolve to the
empty sequence; the code's `context()` yields the two pairs. -/
theorem error_context_no_resolution_counterexample :
    ContextHandle.serializePairs (ContextHandle.Arena 0 2 1) 2
        (ContextArena.mk []) = [] ∧
      ((Error.not_found.with_context "a" "1").with_context "b" "2").context =
        [("a", "1"), ("b", "2")] ∧
      [("a", "1"), ("b", "2")] ≠ ([] : List (String × String)) := by
  refine ⟨by decide, by decide, by decide⟩

/-- C3 (amended): `with_context` appends the new pair to the error's
directly-owned context vector and returns the updated value; it makes no
storage-tier choice and never touches the thread-local arena, whatever the
size of the accumulated pair set. -/
theorem with_context_appends_only (e : Error) (k v : String)
    (a : ContextArena) :
    (e.with_contextS k v a).1.context = e.context ++ [(k, v)] ∧
      (e.with_contextS k v a).2 = a :=
  ⟨rfl, rfl⟩

/-- C3 counterexample: growing an error's context from one pair to two — the
case the claim says re-commits the entire accumulated set to the arena —
leaves the arena byte buffer completely untouched, while an actual
`push_pairs` of two pairs necessarily grows it. -/
theorem with_context_no_commit_counterexample :
    ((Error.not_found.with_context "a" "1").with_contextS "b" "2"
        (ContextArena.mk [])).2 = ContextArena.mk [] ∧
      (ContextArena.push_pairs (ContextArena.mk [])
          [([97], [49]), ([98], [50])]).1.buffer ≠ ([] : List Nat) := by
  exact ⟨rfl, by decide⟩

theorem write_escaped_eq (s buf : String) :
    write_escaped buf s = buf ++ escapeString s := by
  rw [write_escaped, escapeString]
  have h : ∀ (l : List Char) (b : String),
      l.foldl (fun acc c => acc ++ escapeCharStr c) b = b ++ escapeChars l := by
    intro l
    induction l with
    | nil => intro b; simp [escapeChars, String.append_empty]
    | cons c rest ih =>
      intro b
      rw [List.foldl_cons, ih, escapeChars, ← String.append_assoc]
  exact h s.data buf

theorem context_json_step_eq (s0 : String) (fl : Bool)
    (kv : String × String) :
    context_json_step (s0, fl) kv =
      ((if fl then s0 else s0 ++ ",") ++ ctxItem kv, false) := by
  simp only [context_json_step, write_escaped_eq, ctxItem,
    String.append_assoc]

theorem context_json_eq (ctx : List (String × String)) (buf : String) :
    ctx ≠ [] → context_json buf ctx = buf ++ ctxItems ctx := by
  have tailrun : ∀ (rest : List (String × String)) (b : String),
      (rest.foldl context_json_step (b, false)).1 = b ++ ctxItemsTail rest := by
    intro rest
    induction rest with
    | nil => intro b; simp [ctxItemsTail, String.append_empty]
    | cons kv rest ih =>
      intro b
      rw [List.foldl_cons, context_json_step_eq, if_neg (by simp),
        ctxItemsTail, ih]
      simp [String.append_assoc]
  intro hne
  obtain ⟨kv, rest, rfl⟩ : ∃ kv rest, ctx = kv :: rest := by
    cases ctx with
    | nil => exact absurd rfl hne
    | cons kv rest => exact ⟨kv, rest, rfl⟩
  rw [context_json, List.foldl_cons, context_json_step_eq, if_pos rfl,
    tailrun rest (buf ++ ctxItem kv), ctxItems, String.append_assoc]

theorem hex4_small (n : Nat) (h : n < 256) :
    hex4 n = "00" ++ String.mk [hexDigitChar (n / 16), hexDigitChar (n % 16)] := by
  have h1 : n / 4096 % 16 = 0 := by omega
  have h2 : n / 256 % 16 = 0 := by omega
  have h3 : n / 16 % 16 = n / 16 := by omega
  rw [hex4, h1, h2, h3]
  rfl

theorem escapeCharStr_control (c : Char) (hctl : isControlChar c = true)
    (hn : c ≠ '\n') (hr : c ≠ '\r') (ht : c ≠ '\t') :
    escapeCharStr c = "\\u00" ++
      String.mk [hexDigitChar (c.toNat / 16), hexDigitChar (c.toNat % 16)] := by
  have hlt : c.toNat < 256 := by
    simp only [isControlChar, Bool.or_eq_true, Bool.and_eq_true,
      decide_eq_true_eq] at hctl
    omega
  have hq : c ≠ '"' := by
    intro h
    rw [h] at hctl
    exact absurd hctl (by decide)
  have hb : c ≠ '\\' := by
    intro h
    rw [h] at hctl
    exact absurd hctl (by decide)
  rw [escapeCharStr, if_neg hq, if_neg hb, if_neg hn, if_neg hr, if_neg ht,
    if_pos hctl, hex4_small c.toNat hlt, ← String.append_assoc]
  rfl

theorem escapeCharStr_plain (c : Char) (hctl : isControlChar c = false)
    (hq : c ≠ '"') (hb : c ≠ '\\') :
    escapeCharStr c = String.singleton c := by
  have hn : c ≠ '\n' := by
    intro h
    rw [h] at hctl
    exact absurd hctl (by decide)
  have hr : c ≠ '\r' := by
    intro h
    rw [h] at hctl
    exact absurd hctl (by decide)
  have ht : c ≠ '\t' := by
    intro h
    rw [h] at hctl
    exact absurd hctl (by decide)
  rw [escapeCharStr, if_neg hq, if_neg hb, if_neg hn, if_neg hr, if_neg ht,
    if_neg (by simp [hctl])]

/-- C8: `to_json` renders the object with `kind`, `status` and `message`
always present, the `operation` and `context` segments present exactly when
set/non-empty, and the message and context strings escaped character by
character: quote and backslash doubled, newline/carriage-return/tab as
`\n`/`\r`/`\t`, every other control character as a `\u00XX` escape, and all
remaining characters verbatim. -/
theorem to_json_shape (e : Error) :
    e.to_json =
      "\x7b\"kind\":\"" ++ e.kind.to_machine_string ++ "\",\"status\":\"" ++
        e.status.to_machine_string ++ "\",\"message\":\"" ++
        escapeString e.message ++ "\"" ++ opSegment e.operation ++
        ctxSegment e.context ++ "\x7d" ∧
      escapeCharStr '"' = "\\\"" ∧
      escapeCharStr '\\' = "\\\\" ∧
      escapeCharStr '\n' = "\\n" ∧
      escapeCharStr '\r' = "\\r" ∧
      escapeCharStr '\t' = "\\t" ∧
      (∀ c : Char, isControlChar c = true → c ≠ '\n' → c ≠ '\r' → c ≠ '\t' →
        escapeCharStr c = "\\u00" ++
          String.mk [hexDigitChar (c.toNat / 16),
            hexDigitChar (c.toNat % 16)]) ∧
      (∀ c : Char, isControlChar c = false → c ≠ '"' → c ≠ '\\' →
        escapeCharStr c = String.singleton c) := by
  refine ⟨?_, by decide, by decide, by decide, by decide, by decide,
    fun c h1 h2 h3 h4 => escapeCharStr_control c h1 h2 h3 h4,
    fun c h1 h2 h3 => escapeCharStr_plain c h1 h2 h3⟩
  rw [Error.to_json]
  cases ho : e.operation with
  | none =>
    cases hc : e.context with
    | nil =>
      simp [ho, hc, write_escaped_eq, escapeString, opSegment, ctxSegment,
        String.append_assoc, String.append_empty] <;> rfl
    | cons kv rest =>
      simp only [ho, hc, write_escaped_eq, List.isEmpty_cons,
        Bool.false_eq_true, if_false]
      rw [context_json_eq _ _ (by simp)]
      simp [opSegment, ctxSegment, escapeString, String.append_assoc,
        String.append_empty] <;> rfl
  | some op =>
    cases hc : e.context with
    | nil =>
      simp [ho, hc, write_escaped_eq, escapeString, opSegment, ctxSegment,
        String.append_assoc, String.append_empty] <;> rfl
    | cons kv rest =>
      simp only [ho, hc, write_escaped_eq, List.isEmpty_cons,
        Bool.false_eq_true, if_false]
      rw [context_json_eq _ _ (by simp)]
      simp [opSegment, ctxSegment, escapeString, String.append_assoc,
        String.append_empty] <;> rfl

/-- C8 witness: the structural equation at a concrete error with operation
and context set, the `\u00XX` case at U+0001, and the verbatim case at an
ordinary letter. -/
theorem to_json_shape_witness :
    isControlChar (Char.ofNat 1) = true ∧
      Char.ofNat 1 ≠ '\n' ∧ Char.ofNat 1 ≠ '\r' ∧ Char.ofNat 1 ≠ '\t' ∧
      escapeCharStr (Char.ofNat 1) = "\\u00" ++
        String.mk [hexDigitChar ((Char.ofNat 1).toNat / 16),
          hexDigitChar ((Char.ofNat 1).toNat % 16)] ∧
      isControlChar 'x' = false ∧ 'x' ≠ '"' ∧ 'x' ≠ '\\' ∧
      escapeCharStr 'x' = String.singleton 'x' ∧
      (Error.mk .NotFound .Permanent "m" (some "op") [("k", "v")]).to_json =
        "\x7b\"kind\":\"" ++ ErrorKind.NotFound.to_machine_string ++
          "\",\"status\":\"" ++ ErrorStatus.Permanent.to_machine_string ++
          "\",\"message\":\"" ++ escapeString "m" ++ "\"" ++
          opSegment (some "op") ++ ctxSegment [("k", "v")] ++ "\x7d" :=
  ⟨by decide, by decide, by decide, by decide,
    (to_json_shape Error.not_found).2.2.2.2.2.2.1 (Char.ofNat 1) (by decide)
      (by decide) (by decide) (by decide),
    by decide, by decide, by decide,
    (to_json_shape Error.not_found).2.2.2.2.2.2.2 'x' (by decide) (by decide)
      (by decide),
    (to_json_shape (Error.mk .NotFound .Permanent "m" (some "op")
      [("k", "v")])).1⟩

/-- C10: the allocating renderer equals the buffer-writing renderer applied
to a fresh empty buffer. -/
theorem to_json_eq_write_json_empty (e : Error) :
    e.to_json = e.write_json "" := by
  rw [Error.to_json, Error.write_json, String.empty_append]

theorem framesSize_append (a b : List Frame) :
    framesSize (a ++ b) = framesSize a + framesSize b := by
  induction a with
  | nil => simp [framesSize]
  | cons f resta ih =>
    cases f with
    | mk p cs =>
      rw [List.cons_append, framesSize, framesSize, ih]
      omega

theorem framesSize_reverse (a : List Frame) :
    framesSize a.reverse = framesSize a := by
  induction a with
  | nil => rfl
  | cons f resta ih =>
    cases f with
    | mk p cs =>
      rw [List.reverse_cons, framesSize_append, framesSize, framesSize, ih,
        framesSize]
      omega

theorem subframesL_append (a b : List Frame) :
    subframesL (a ++ b) = subframesL a ++ subframesL b := by
  induction a with
  | nil => simp [subframesL]
  | cons f resta ih =>
    rw [List.cons_append, subframesL, subframesL, ih, List.append_assoc]

theorem all_subframesL_reverse (q : Frame → Bool) (a : List Frame) :
    (subframesL a.reverse).all q = (subframesL a).all q := by
  induction a with
  | nil => rfl
  | cons f resta ih =>
    cases f with
    | mk p cs =>
      simp only [List.reverse_cons, subframesL_append, List.all_append, ih,
        subframesL, subframesF, List.cons_append, List.all_cons, List.all_nil,
        List.append_nil, Bool.and_true]
      simp [Bool.and_comm, Bool.and_left_comm, Bool.and_assoc]

/-- The explicit-stack traversal visits exactly the frames of the trees on
the stack: an `all` over the visit sequence equals an `all` over the
recursive frame enumeration. -/
theorem visitAll_all (q : Frame → Bool) (n : Nat) :
    ∀ (s : List Frame), framesSize s ≤ n →
      (visitAll s).all q = (subframesL s).all q := by
  induction n with
  | zero =>
    intro s hs
    cases s with
    | nil => simp [visitAll, subframesL]
    | cons f rest =>
      cases f with
      | mk p cs =>
        rw [framesSize] at hs
        omega
  | succ n ih =>
    intro s hs
    cases s with
    | nil => simp [visitAll, subframesL]
    | cons f rest =>
      cases f with
      | mk p cs =>
        rw [framesSize] at hs
        rw [visitAll, List.all_cons,
          ih (cs.reverse ++ rest)
            (by rw [framesSize_append, framesSize_reverse]; omega),
          subframesL_append, List.all_append, all_subframesL_reverse,
          subframesL, subframesF, List.cons_append, List.all_cons,
          List.all_append]

theorem frameRetryableOk_iff (f : Frame) :
    frameRetryableOk f = true ↔
      ∀ e, f.payload = some e → e.is_retryable = true := by
  cases hf : f.payload with
  | none => simp [frameRetryableOk, hf]
  | some e0 => simp [frameRetryableOk, hf]

/-- C9: the iterative `is_all_retryable` returns true exactly when every
frame of the tree whose payload downcasts to an `Error` carries a retryable
one (frames without an `Error` payload are vacuously compliant); in
particular a tree whose `Error` payloads are all `Temporary` yields true,
and a tree containing any frame with a `Permanent` `Error` anywhere yields
false. -/
theorem is_all_retryable_characterization (t : Frame) :
    (is_all_retryable t = true ↔
      ∀ f ∈ t.subframes, ∀ e, f.payload = some e → e.is_retryable = true) ∧
      ((∀ f ∈ t.subframes, payloadAllStatus .Temporary f) →
        is_all_retryable t = true) ∧
      ((∃ f ∈ t.subframes, payloadHasStatus .Permanent f) →
        is_all_retryable t = false) := by
  have hvisit : is_all_retryable t = (subframesL [t]).all frameRetryableOk := by
    rw [is_all_retryable, visitAll_all frameRetryableOk (framesSize [t]) [t]
      le_rfl]
  have hiff : is_all_retryable t = true ↔
      ∀ f ∈ t.subframes, ∀ e, f.payload = some e → e.is_retryable = true := by
    rw [hvisit, List.all_eq_true]
    constructor
    · intro h f hf
      exact (frameRetryableOk_iff f).mp (h f hf)
    · intro h f hf
      exact (frameRetryableOk_iff f).mpr (h f hf)
  refine ⟨hiff, ?_, ?_⟩
  · intro h
    refine hiff.mpr (fun f hf e hpe => ?_)
    have hst := h f hf e hpe
    rw [Error.is_retryable, hst]
    rfl
  · rintro ⟨f, hmem, e, hpe, hstatus⟩
    cases hall : is_all_retryable t with
    | false => rfl
    | true =>
      have := hiff.mp hall f hmem e hpe
      rw [Error.is_retryable, hstatus] at this
      exact absurd this (by decide)

/-- C9 witness: a tree of three frames (one without an `Error` payload)
whose `Error` payloads are all `Temporary`, and a tree whose nested frame
carries a `Permanent` `Error`. -/
theorem is_all_retryable_witness :
    (∀ f ∈ (Frame.mk (some (Error.temporary .Timeout "t"))
        [Frame.mk none [],
          Frame.mk (some (Error.temporary .Unexpected "u")) []]).subframes,
      payloadAllStatus .Temporary f) ∧
      is_all_retryable (Frame.mk (some (Error.temporary .Timeout "t"))
        [Frame.mk none [],
          Frame.mk (some (Error.temporary .Unexpected "u")) []]) = true ∧
      (∃ f ∈ (Frame.mk (some (Error.temporary .Timeout "t"))
          [Frame.mk (some (Error.permanent .NotFound "n")) []]).subframes,
        payloadHasStatus .Permanent f) ∧
      is_all_retryable (Frame.mk (some (Error.temporary .Timeout "t"))
        [Frame.mk (some (Error.permanent .NotFound "n")) []]) = false := by
  have h1 : ∀ f ∈ (Frame.mk (some (Error.temporary .Timeout "t"))
      [Frame.mk none [],
        Frame.mk (some (Error.temporary .Unexpected "u")) []]).subframes,
      payloadAllStatus .Temporary f := by
    intro f hf
    rw [Frame.subframes] at hf
    simp only [subframesL, subframesF, List.append_nil, List.nil_append,
      List.mem_cons, List.mem_append, List.not_mem_nil, or_false] at hf
    rcases hf with rfl | rfl | rfl <;> decide
  have h2 : ∃ f ∈ (Frame.mk (some (Error.temporary .Timeout "t"))
      [Frame.mk (some (Error.permanent .NotFound "n")) []]).subframes,
      payloadHasStatus .Permanent f := by
    refine ⟨Frame.mk (some (Error.permanent .NotFound "n")) [], ?_, by decide⟩
    rw [Frame.subframes]
    simp [subframesL, subframesF]
  exact ⟨h1,
    (is_all_retryable_characterization _).2.1 h1,
    h2,
    (is_all_retryable_characterization _).2.2 h2⟩

end Erract
